import Mathlib

set_option maxRecDepth 20000

/-!
Verification development for the Teleinfo project-portfolio dashboard.

The TypeScript source is shallowly embedded: JavaScript numbers are modelled
as exact rationals (the derivation rules under scrutiny are pure field
arithmetic), JavaScript strings as Lean strings, and the Unicode per-character
case mappings used by toUpperCase and toLowerCase are modelled faithfully on
the ASCII and Latin-1 letter ranges, the full repertoire appearing in this
repository's column names, canonical labels and data. parseFloat is modelled
on finite decimal literals (optional sign, digits, fraction, exponent), i.e.
without the Infinity word form. Fallible operations return Option, and the
parser's user-facing alert calls are reified as an explicit outcome value.
-/

namespace Teleinfo

/-- Character upper-casing as performed by JS toUpperCase, restricted to
ASCII and Latin-1 letters. -/
def jsCharToUpper (c : Char) : Char :=
  if 0x61 ≤ c.toNat ∧ c.toNat ≤ 0x7A then Char.ofNat (c.toNat - 32)
  else if 0xE0 ≤ c.toNat ∧ c.toNat ≤ 0xFE ∧ c.toNat ≠ 0xF7 then Char.ofNat (c.toNat - 32)
  else if c.toNat = 0xFF then Char.ofNat 0x178
  else c

/-- Character lower-casing as performed by JS toLowerCase, restricted to
ASCII and Latin-1 letters. -/
def jsCharToLower (c : Char) : Char :=
  if 0x41 ≤ c.toNat ∧ c.toNat ≤ 0x5A then Char.ofNat (c.toNat + 32)
  else if 0xC0 ≤ c.toNat ∧ c.toNat ≤ 0xDE ∧ c.toNat ≠ 0xD7 then Char.ofNat (c.toNat + 32)
  else if c.toNat = 0x178 then Char.ofNat 0xFF
  else c

/-- JS String.prototype.toUpperCase on the modelled repertoire. -/
def jsToUpper (s : String) : String := (s.data.map jsCharToUpper).asString

/-- JS String.prototype.toLowerCase on the modelled repertoire. -/
def jsToLower (s : String) : String := (s.data.map jsCharToLower).asString

/-- White space recognised by the model of JS String.prototype.trim
(space, tab, line feed, carriage return). -/
def jsIsSpace (c : Char) : Bool := c == ' ' || c == '\t' || c == '\n' || c == '\r'

/-- Drop leading white space from a character list. -/
def trimStartL (l : List Char) : List Char := l.dropWhile jsIsSpace

/-- Drop trailing white space from a character list. -/
def trimEndL (l : List Char) : List Char := ((l.reverse.dropWhile jsIsSpace)).reverse

/-- JS String.prototype.trim: strip white space from both ends. -/
def jsTrim (s : String) : String := (trimEndL (trimStartL s.data)).asString

/-- Remove the first occurrence of a character, as JS
String.prototype.replace with a one-character string pattern and an empty
replacement does. -/
def removeFirstChar (c : Char) : List Char → List Char
  | [] => []
  | x :: xs => if x == c then xs else x :: removeFirstChar c xs

/-- Replace the first occurrence of a character by another, as JS
String.prototype.replace with one-character strings does. -/
def replaceFirstChar (c r : Char) : List Char → List Char
  | [] => []
  | x :: xs => if x == c then r :: xs else x :: replaceFirstChar c r xs

/-- Split a character list at every occurrence of a separator character,
with JS String.prototype.split semantics (the empty string yields one
empty field). -/
def splitOnChar (sep : Char) : List Char → List (List Char)
  | [] => [[]]
  | c :: rest =>
    match splitOnChar sep rest with
    | [] => [[]]
    | g :: gs => if c == sep then [] :: g :: gs else (c :: g) :: gs

/-- JS String.prototype.split with a one-character separator. -/
def jsSplit (sep : Char) (s : String) : List String :=
  (splitOnChar sep s.data).map List.asString

/-- Substring containment test, as JS String.prototype.includes. -/
def containsSub (s pat : String) : Bool :=
  go pat.data s.data
where
  go (pat : List Char) : List Char → Bool
    | [] => pat.isEmpty
    | c :: rest => pat.isPrefixOf (c :: rest) || go pat rest

/-- JS String.prototype.startsWith. -/
def startsWithStr (s pat : String) : Bool := pat.data.isPrefixOf s.data

/-- Numeric value of a list of decimal digit characters, most significant
first. -/
def digitsToNat (l : List Char) : Nat :=
  l.foldl (fun a c => 10 * a + (c.toNat - 48)) 0

/-- Powers of ten in the rationals. -/
def pow10 : Nat → ℚ
  | 0 => 1
  | n + 1 => 10 * pow10 n

/-- Structural part of the JS parseFloat model on finite decimal literals:
skip leading white space, read an optional sign, then the longest prefix of
the forms digits[.digits][exponent] or .digits[exponent]; none when no
digit is read (NaN). The result records whether the sign was negative, the
mantissa digits read as a natural number, the number of fraction digits,
and the (signed) exponent. -/
def jsParseFloatRepr (s : String) : Option (Bool × Nat × Nat × ℤ) :=
  let cs := s.data.dropWhile jsIsSpace
  let sgn : Bool × List Char :=
    match cs with
    | '-' :: rest => (true, rest)
    | '+' :: rest => (false, rest)
    | _ => (false, cs)
  let intDigits := sgn.2.takeWhile Char.isDigit
  let cs2 := sgn.2.dropWhile Char.isDigit
  let frac : List Char × List Char :=
    match cs2 with
    | '.' :: rest => (rest.takeWhile Char.isDigit, rest.dropWhile Char.isDigit)
    | _ => ([], cs2)
  if intDigits.isEmpty && frac.1.isEmpty then none
  else
    let expo : ℤ :=
      match frac.2 with
      | c :: rest =>
        if c == 'e' || c == 'E' then
          let esgn : ℤ × List Char :=
            match rest with
            | '-' :: r => (-1, r)
            | '+' :: r => (1, r)
            | _ => (1, rest)
          let eds := esgn.2.takeWhile Char.isDigit
          if eds.isEmpty then 0 else esgn.1 * (digitsToNat eds : ℤ)
        else 0
      | [] => 0
    some (sgn.1, digitsToNat (intDigits ++ frac.1), frac.1.length, expo)

/-- Rational value denoted by a parse result of jsParseFloatRepr. -/
def floatReprValue (r : Bool × Nat × Nat × ℤ) : ℚ :=
  let mant : ℚ := (r.2.1 : ℚ) / pow10 r.2.2.1
  let signed : ℚ := if r.1 then -mant else mant
  if 0 ≤ r.2.2.2 then signed * pow10 r.2.2.2.toNat
  else signed / pow10 (-r.2.2.2).toNat

/-- Model of JS parseFloat on finite decimal literals. -/
def jsParseFloat (s : String) : Option ℚ :=
  (jsParseFloatRepr s).map floatReprValue

/-- Percentage normalizer of DashboardView.tsx (normalizePercent): null in,
null out; remove the first "%", trim, empty means null; turn the first ","
into "." and parse as a float, null when NaN. Nullable numeric input is
modelled as the decimal text JS String() coercion would produce. -/
def normalizePercent : Option String → Option ℚ
  | none => none
  | some value =>
    let cleaned := jsTrim (removeFirstChar '%' value.data).asString
    if cleaned == "" then none
    else jsParseFloat (replaceFirstChar ',' '.' cleaned.data).asString

/-- Worded from the claim, for comparison with the source: strip a TRAILING
"%" (only), then surrounding white space, empty means null, decimal comma to
decimal point, parse as a float. -/
def normalizePercentTrailingSpec : Option String → Option ℚ
  | none => none
  | some value =>
    let stripped : List Char :=
      match value.data.reverse with
      | c :: rest => if c == '%' then rest.reverse else value.data
      | [] => value.data
    let cleaned := jsTrim stripped.asString
    if cleaned == "" then none
    else jsParseFloat (replaceFirstChar ',' '.' cleaned.data).asString

/-- Amended reading of the claim: the normalizer removes the FIRST "%"
occurrence, wherever it sits, then proceeds exactly as the claim says. -/
def normalizePercentAmendedSpec : Option String → Option ℚ
  | none => none
  | some raw =>
    let afterPercentRemoval := (removeFirstChar '%' raw.data).asString
    let trimmed := jsTrim afterPercentRemoval
    if trimmed == "" then none
    else jsParseFloat (replaceFirstChar ',' '.' trimmed.data).asString

/-- Step of a user-maintained detailed project (types.ts
DetailedProjectStep): a name and a completion percentage. -/
structure DetailedProjectStep where
  name : String
  perc : ℚ
deriving DecidableEq

/-- Overall step progress of the monitoring view (App.tsx MonitoringView
overallProgress): steps whose trimmed name is empty are dropped, then the
mean of the remaining percentages is taken, 0 when none remain. -/
def monitoringOverallProgress (steps : List DetailedProjectStep) : ℚ :=
  let validSteps := steps.filter (fun s => !(jsTrim s.name == ""))
  if validSteps.length = 0 then 0
  else validSteps.foldl (fun acc step => acc + step.perc) 0 / validSteps.length

/-- Overall step progress of the presentation slide
(PresentationView.tsx overallProgress): mean of all step percentages, 0
when the project has no steps. -/
def presOverallProgress (steps : List DetailedProjectStep) : ℚ :=
  if steps.length > 0 then steps.foldl (fun acc s => acc + s.perc) 0 / steps.length
  else 0

/-- Overall step progress of the AI-prompt builder
(geminiService generateDetailedProjectRiskAnalysis): mean of all step
percentages, 0 when the project has no steps. -/
def geminiOverallProgress (steps : List DetailedProjectStep) : ℚ :=
  if steps.length > 0 then steps.foldl (fun acc s => acc + s.perc) 0 / steps.length
  else 0

/-- Arithmetic mean of all step percentages, 0 for no steps, worded from
the claim. -/
def meanStepPerc (steps : List DetailedProjectStep) : ℚ :=
  if steps = [] then 0 else (steps.map (fun s => s.perc)).sum / steps.length

/-- Timeline elapsed-progress of a detailed-project slide
(PresentationView.tsx timelineInfo.progress). Dates are date-only values at
local midnight, modelled as integer day numbers; JS millisecond differences
of such dates are day differences times a fixed positive constant, which
cancels in the ratio. A missing date or start after end leaves the initial
0 progress. -/
def timelineProgress (startD endD : Option ℤ) (today : ℤ) : ℚ :=
  match startD, endD with
  | some s, some e =>
    if s ≤ e then
      let totalDuration : ℤ := e - s
      let elapsedDuration : ℤ := today - s
      if 0 < totalDuration then
        max 0 (min 100 ((elapsedDuration : ℚ) / (totalDuration : ℚ) * 100))
      else if e ≤ today then 100 else 0
    else 0
  | _, _ => 0

/-- Per-bucket color of the Utilizadas bar on a detailed-project slide
(PresentationView.tsx hoursComparisonData cell coloring). -/
def hoursRiskColor (sold used : ℚ) : String :=
  if 0 < sold then
    if sold < used then "#ef4444"
    else if (8 : ℚ) / 10 ≤ used / sold then "#eab308"
    else "#f97316"
  else "#f97316"

/-- Status normalization of DashboardView.tsx (normalizeStatus): the empty
string is falsy and stays empty, anything else is trimmed then
upper-cased. -/
def normalizeStatus (status : String) : String :=
  if status == "" then "" else jsToUpper (jsTrim status)

/-- Chart color for a status, DashboardView.tsx getStatusChartColor. -/
def getStatusChartColor (status : String) : String :=
  let normalized := normalizeStatus status
  if startsWithStr normalized "FINALIZADO" then "#22c55e"
  else if startsWithStr normalized "EM ANDAMENTO" then "#3b82f6"
  else if startsWithStr normalized "PARALIZADO" then "#ef4444"
  else if startsWithStr normalized "NÃO INICIADO" then "#eab308"
  else "#6b7280"

/-- Chart color for a business unit, DashboardView.tsx getBuChartColor. -/
def getBuChartColor (bu : String) : String :=
  let normalized := jsToUpper (jsTrim bu)
  if containsSub normalized "INFRAESTRUTURA" then "#f97316"
  else if containsSub normalized "SEGURANÇA" then "#10b981"
  else if containsSub normalized "TI" then "#0b5ed7"
  else if containsSub normalized "AUTOMAÇÃO" then "#6b7280"
  else "#8b949e"

/-- Canonical status buckets of the classifier, worded from the claim. -/
inductive StatusBucket
  | finalizado
  | emAndamento
  | paralizado
  | naoIniciado
  | defaultBucket
deriving DecidableEq

/-- Claim-side classifier: normalize (trim, upper-case) and test the
canonical labels as text beginnings in the fixed order, falling back to
the default bucket. -/
def classifyStatus (status : String) : StatusBucket :=
  let n := normalizeStatus status
  if startsWithStr n "FINALIZADO" then .finalizado
  else if startsWithStr n "EM ANDAMENTO" then .emAndamento
  else if startsWithStr n "PARALIZADO" then .paralizado
  else if startsWithStr n "NÃO INICIADO" then .naoIniciado
  else .defaultBucket

/-- Classifier applied to an already-stored status text without
re-normalizing, as the summary tally of DashboardView.tsx does. -/
def classifyRawStatus (s : String) : StatusBucket :=
  if startsWithStr s "FINALIZADO" then .finalizado
  else if startsWithStr s "EM ANDAMENTO" then .emAndamento
  else if startsWithStr s "PARALIZADO" then .paralizado
  else if startsWithStr s "NÃO INICIADO" then .naoIniciado
  else .defaultBucket

/-- Fixed chart color carried by each canonical bucket. -/
def bucketChartColor : StatusBucket → String
  | .finalizado => "#22c55e"
  | .emAndamento => "#3b82f6"
  | .paralizado => "#ef4444"
  | .naoIniciado => "#eab308"
  | .defaultBucket => "#6b7280"

/-- JS Number.prototype.toFixed(1) on a non-negative rational: round
10x to the nearest integer, larger one on ties, and print with one
fraction digit. -/
def toFixed1Nonneg (q : ℚ) : String :=
  let n : Nat := (Int.floor (10 * q + 1 / 2)).toNat
  Nat.repr (n / 10) ++ "." ++ Nat.repr (n % 10)

/-- JS Number.prototype.toFixed(1): negative inputs print a minus sign in
front of the rendering of the absolute value. -/
def toFixed1 (q : ℚ) : String :=
  if q < 0 then "-" ++ toFixed1Nonneg (-q) else toFixed1Nonneg q

/-- Project record produced by the CSV normalizer (types.ts Project).
Field names follow the source columns: tipoProjeto is TIPO DE PROJETO,
tipoProduto is TIPO DE PRODUTO, cCusto is C.Custo. -/
structure Project where
  CLIENTE : String
  tipoProjeto : String
  tipoProduto : String
  BUs : String
  cCusto : String
  STATUS : String
  perc : Option ℚ
deriving DecidableEq

/-- Derived summary figures of a record collection. -/
structure Summary where
  total : Nat
  avgPercent : String
  finished : Nat
  inProgress : Nat
  paralyzed : Nat
  notStarted : Nat
deriving DecidableEq

/-- One chart bar: label, count and display color. -/
structure ChartDatum where
  name : String
  projetos : Nat
  color : String
deriving DecidableEq

/-- JS object-increment idiom counts[k] = (counts[k] or 0) + 1 on an
insertion-ordered string-keyed map. -/
def bumpCount (m : List (String × Nat)) (k : String) : List (String × Nat) :=
  if m.any (fun e => e.1 == k) then
    m.map (fun e => if e.1 == k then (e.1, e.2 + 1) else e)
  else m ++ [(k, 1)]

namespace Dashboard

/-- Four canonical-status counters of the DashboardView summary, in the
order finished, inProgress, paralyzed, notStarted. -/
def canonTally (data : List Project) : Nat × Nat × Nat × Nat :=
  data.foldl (fun acc p =>
    if startsWithStr p.STATUS "FINALIZADO" then (acc.1 + 1, acc.2.1, acc.2.2.1, acc.2.2.2)
    else if startsWithStr p.STATUS "EM ANDAMENTO" then (acc.1, acc.2.1 + 1, acc.2.2.1, acc.2.2.2)
    else if startsWithStr p.STATUS "PARALIZADO" then (acc.1, acc.2.1, acc.2.2.1 + 1, acc.2.2.2)
    else if startsWithStr p.STATUS "NÃO INICIADO" then (acc.1, acc.2.1, acc.2.2.1, acc.2.2.2 + 1)
    else acc) (0, 0, 0, 0)

/-- Literal status occurrence counts of the DashboardView summary, empty
status keyed as N/A. -/
def statusCounts (data : List Project) : List (String × Nat) :=
  data.foldl (fun m p => bumpCount m (if p.STATUS == "" then "N/A" else p.STATUS)) []

/-- Literal BU occurrence counts of the DashboardView summary. -/
def buCounts (data : List Project) : List (String × Nat) :=
  data.foldl (fun m p => bumpCount m (if p.BUs == "" then "N/A" else p.BUs)) []

/-- The non-null percentages of the collection, in order. -/
def percValues (data : List Project) : List ℚ :=
  data.filterMap (fun p => p.perc)

/-- Average of the non-null percentages, 0 when there are none. -/
def avgOf (data : List Project) : ℚ :=
  if (percValues data).length = 0 then 0
  else (percValues data).foldl (fun a b => a + b) 0 / (percValues data).length

/-- The average formatted to one decimal place as a percentage string. -/
def avgPercentOf (data : List Project) : String :=
  toFixed1 (avgOf data) ++ "%"

/-- The DashboardView summary card figures. -/
def summaryOf (data : List Project) : Summary :=
  { total := data.length
    avgPercent := avgPercentOf data
    finished := (canonTally data).1
    inProgress := (canonTally data).2.1
    paralyzed := (canonTally data).2.2.1
    notStarted := (canonTally data).2.2.2 }

/-- The DashboardView status chart rows. -/
def statusChartDataOf (data : List Project) : List ChartDatum :=
  (statusCounts data).map (fun e =>
    { name := e.1, projetos := e.2, color := getStatusChartColor e.1 })

/-- The DashboardView BU chart rows. -/
def buChartDataOf (data : List Project) : List ChartDatum :=
  (buCounts data).map (fun e =>
    { name := e.1, projetos := e.2, color := getBuChartColor e.1 })

end Dashboard

namespace Pres

/-- PresentationView.tsx duplicate of normalizeStatus. -/
def normalizeStatus (status : String) : String :=
  if status == "" then "" else jsToUpper (jsTrim status)

/-- PresentationView.tsx duplicate of getStatusChartColor. -/
def getStatusChartColor (status : String) : String :=
  let normalized := normalizeStatus status
  if startsWithStr normalized "FINALIZADO" then "#22c55e"
  else if startsWithStr normalized "EM ANDAMENTO" then "#3b82f6"
  else if startsWithStr normalized "PARALIZADO" then "#ef4444"
  else if startsWithStr normalized "NÃO INICIADO" then "#eab308"
  else "#6b7280"

/-- PresentationView.tsx duplicate of getBuChartColor. -/
def getBuChartColor (bu : String) : String :=
  let normalized := jsToUpper (jsTrim bu)
  if containsSub normalized "INFRAESTRUTURA" then "#f97316"
  else if containsSub normalized "SEGURANÇA" then "#10b981"
  else if containsSub normalized "TI" then "#0b5ed7"
  else if containsSub normalized "AUTOMAÇÃO" then "#6b7280"
  else "#8b949e"

/-- Canonical-status counters of the PresentationView portfolio summary. -/
def canonTally (data : List Project) : Nat × Nat × Nat × Nat :=
  data.foldl (fun acc p =>
    if startsWithStr p.STATUS "FINALIZADO" then (acc.1 + 1, acc.2.1, acc.2.2.1, acc.2.2.2)
    else if startsWithStr p.STATUS "EM ANDAMENTO" then (acc.1, acc.2.1 + 1, acc.2.2.1, acc.2.2.2)
    else if startsWithStr p.STATUS "PARALIZADO" then (acc.1, acc.2.1, acc.2.2.1 + 1, acc.2.2.2)
    else if startsWithStr p.STATUS "NÃO INICIADO" then (acc.1, acc.2.1, acc.2.2.1, acc.2.2.2 + 1)
    else acc) (0, 0, 0, 0)

/-- Literal status occurrence counts of the portfolio summary. -/
def statusCounts (data : List Project) : List (String × Nat) :=
  data.foldl (fun m p => bumpCount m (if p.STATUS == "" then "N/A" else p.STATUS)) []

/-- Literal BU occurrence counts of the portfolio summary. -/
def buCounts (data : List Project) : List (String × Nat) :=
  data.foldl (fun m p => bumpCount m (if p.BUs == "" then "N/A" else p.BUs)) []

/-- The non-null percentages of the collection, in order. -/
def percValues (data : List Project) : List ℚ :=
  data.filterMap (fun p => p.perc)

/-- Average of the non-null percentages, 0 when there are none. -/
def avgOf (data : List Project) : ℚ :=
  if (percValues data).length = 0 then 0
  else (percValues data).foldl (fun a b => a + b) 0 / (percValues data).length

/-- The average formatted to one decimal place as a percentage string. -/
def avgPercentOf (data : List Project) : String :=
  toFixed1 (avgOf data) ++ "%"

/-- The portfolio summary card figures. -/
def summaryOf (data : List Project) : Summary :=
  { total := data.length
    avgPercent := avgPercentOf data
    finished := (canonTally data).1
    inProgress := (canonTally data).2.1
    paralyzed := (canonTally data).2.2.1
    notStarted := (canonTally data).2.2.2 }

/-- The portfolio status chart rows. -/
def statusChartDataOf (data : List Project) : List ChartDatum :=
  (statusCounts data).map (fun e =>
    { name := e.1, projetos := e.2, color := getStatusChartColor e.1 })

/-- The portfolio BU chart rows. -/
def buChartDataOf (data : List Project) : List ChartDatum :=
  (buCounts data).map (fun e =>
    { name := e.1, projetos := e.2, color := getBuChartColor e.1 })

end Pres

/-- Equality filtering of the project table by the three dropdowns
(DashboardView filteredProjects); an empty filter string is falsy and
disables its test. -/
def filteredProjects (projects : List Project)
    (statusFilter buFilter clientFilter : String) : List Project :=
  projects.filter (fun p =>
    (if statusFilter == "" then true else p.STATUS == statusFilter) &&
    (if buFilter == "" then true else p.BUs == buFilter) &&
    (if clientFilter == "" then true else p.CLIENTE == clientFilter))

/-- JS Set.add: append when not already present, keeping insertion
order. -/
def insertNew (seen : List String) (x : String) : List String :=
  if seen.contains x then seen else seen ++ [x]

/-- Distinct non-empty status, BU and client strings of the UNFILTERED
collection, in insertion order (DashboardView uniqueFilters sets). -/
def collectFilterSets (projects : List Project) :
    List String × List String × List String :=
  projects.foldl (fun acc p =>
    let sts := if p.STATUS == "" then acc.1 else insertNew acc.1 p.STATUS
    let bus := if p.BUs == "" then acc.2.1 else insertNew acc.2.1 p.BUs
    let cls := if p.CLIENTE == "" then acc.2.2 else insertNew acc.2.2 p.CLIENTE
    (sts, bus, cls)) ([], [], [])

/-- Code-unit lexicographic order on character lists, as the default JS
Array.prototype.sort comparison of strings. -/
def strLeChars : List Char → List Char → Bool
  | [], _ => true
  | _ :: _, [] => false
  | a :: as, b :: bs => if a < b then true else if b < a then false else strLeChars as bs

/-- Code-unit lexicographic order on strings. -/
def strLe (s t : String) : Bool := strLeChars s.data t.data

/-- Insert into a sorted list of strings. -/
def insertSorted (x : String) : List String → List String
  | [] => [x]
  | y :: ys => if strLe x y then x :: y :: ys else y :: insertSorted x ys

/-- Ascending sort of a string list, modelling Array.prototype.sort. -/
def sortStrings (l : List String) : List String := l.foldr insertSorted []

/-- Sorted filter-choice sets of the dashboard. -/
structure UniqueFilters where
  statuses : List String
  bus : List String
  clients : List String
deriving DecidableEq

/-- The uniqueFilters value of DashboardView: distinct non-empty strings
over the unfiltered collection, sorted ascending. -/
def uniqueFiltersOf (projects : List Project) : UniqueFilters :=
  { statuses := sortStrings (collectFilterSets projects).1
    bus := sortStrings (collectFilterSets projects).2.1
    clients := sortStrings (collectFilterSets projects).2.2 }

/-- Everything the DashboardView useMemo derives. -/
structure DashboardModel where
  summary : Summary
  statusChartData : List ChartDatum
  buChartData : List ChartDatum
  uniqueFilters : UniqueFilters
deriving DecidableEq

/-- The DashboardView derived view model: the summary and charts come from
the filtered collection, the filter choices from the unfiltered one. -/
def dashboardModel (projects : List Project)
    (statusFilter buFilter clientFilter : String) : DashboardModel :=
  let data := filteredProjects projects statusFilter buFilter clientFilter
  { summary := Dashboard.summaryOf data
    statusChartData := Dashboard.statusChartDataOf data
    buChartData := Dashboard.buChartDataOf data
    uniqueFilters := uniqueFiltersOf projects }

/-- Strip a leading byte-order mark, as parseTeleinfoCsv step 1 does via
charCodeAt(0) === 0xFEFF. -/
def stripBom (s : String) : String :=
  match s.data with
  | c :: rest => if c.toNat == 0xFEFF then rest.asString else s
  | [] => s

/-- Split on CRLF or LF: splitting on LF and then dropping one trailing CR
per piece is exactly the regex split the source uses. -/
def splitLines (s : String) : List String :=
  (splitOnChar '\n' s.data).map (fun l =>
    match l.reverse with
    | '\r' :: rest => rest.reverse.asString
    | _ => l.asString)

/-- All lines of the BOM-stripped upload (parseTeleinfoCsv allLines). -/
def csvAllLines (text : String) : List String := splitLines (stripBom text)

/-- Index of the header row: the first line whose upper-cased content
contains CLIENTE (parseTeleinfoCsv headerRowIndex); none models the -1
failure. -/
def csvHeaderIdx (text : String) : Option Nat :=
  (csvAllLines text).findIdx? (fun l => containsSub (jsToUpper l) "CLIENTE")

/-- Usable lines: everything from the header row on, minus lines that are
empty after removing all semicolons (parseTeleinfoCsv lines). -/
def csvLines (text : String) : List String :=
  match csvHeaderIdx text with
  | none => []
  | some i =>
    ((csvAllLines text).drop i).filter
      (fun l => !(jsTrim (l.data.filter (fun c => !(c == ';'))).asString == ""))

/-- Header cells: the first usable line split on the separator, each cell
trimmed (parseTeleinfoCsv headers). -/
def csvHeaders (text : String) : List String :=
  (jsSplit ';' ((csvLines text).headD "")).map jsTrim

/-- Resolved column positions (parseTeleinfoCsv idxMap); none models the
-1 of a missing column. -/
structure ColIdx where
  cliente : Option Nat
  tipoProjeto : Option Nat
  tipoProduto : Option Nat
  bus : Option Nat
  cCusto : Option Nat
  status : Option Nat
  perc : Option Nat

/-- Case-insensitive exact header-name match, first match wins
(parseTeleinfoCsv findIndex; every call site passes one candidate name). -/
def findCol (headers : List String) (name : String) : Option Nat :=
  headers.findIdx? (fun h => jsToLower h == jsToLower name)

/-- Resolve all seven columns of interest. -/
def mkColIdx (headers : List String) : ColIdx :=
  { cliente := findCol headers "CLIENTE"
    tipoProjeto := findCol headers "TIPO DE PROJETO"
    tipoProduto := findCol headers "TIPO DE PRODUTO"
    bus := findCol headers "BUs"
    cCusto := findCol headers "C.Custo"
    status := findCol headers "STATUS"
    perc := findCol headers "%" }

/-- Cell access with trim and empty-string default for out-of-range
indices (parseTeleinfoCsv getCell). -/
def getCell (cells : List String) (idx : Nat) : String :=
  jsTrim (cells.getD idx "")

/-- Cell of a resolved column, empty string when the column is missing:
the source idiom idxMap.x > -1 ? getCell(idxMap.x) : "". -/
def cellOrEmpty (o : Option Nat) (cells : List String) : String :=
  match o with
  | some i => getCell cells i
  | none => ""

/-- One data line of the row loop of parseTeleinfoCsv: split on the
separator, read the identity cells, skip the row when both are blank,
otherwise build the record. -/
def parseRow (idx : ColIdx) (line : String) : Option Project :=
  let cells := jsSplit ';' line
  let cliente := cellOrEmpty idx.cliente cells
  let cCusto := cellOrEmpty idx.cCusto cells
  if cliente == "" && cCusto == "" then none
  else some
    { CLIENTE := cliente
      tipoProjeto := cellOrEmpty idx.tipoProjeto cells
      tipoProduto := cellOrEmpty idx.tipoProduto cells
      BUs := cellOrEmpty idx.bus cells
      cCusto := cCusto
      STATUS := normalizeStatus (cellOrEmpty idx.status cells)
      perc := normalizePercent
        (match idx.perc with | some i => some (getCell cells i) | none => none) }

/-- Outcome of a parse run, reifying the alert calls of
parseTeleinfoCsv: the first three are the parse-fatal conditions of the
error taxonomy, noValidRows is the soft warning, ok is silence. -/
inductive ParseOutcome
  | noHeader
  | tooFewLines
  | noIdentityColumns
  | noValidRows
  | ok
deriving DecidableEq

/-- Whether an outcome is one of the parse-fatal conditions. -/
def ParseOutcome.isFatal : ParseOutcome → Bool
  | .noHeader => true
  | .tooFewLines => true
  | .noIdentityColumns => true
  | .noValidRows => false
  | .ok => false

/-- The rows.push step of the row loop: append the parsed record when the
row is not skipped. -/
def pushRow {α β : Type} (f : α → Option β) (acc : List β) (x : α) : List β :=
  match f x with
  | some r => acc ++ [r]
  | none => acc

/-- The CSV normalizer parseTeleinfoCsv of DashboardView.tsx: record list
plus reified outcome. -/
def parseTeleinfoCsv (text : String) : List Project × ParseOutcome :=
  match csvHeaderIdx text with
  | none => ([], .noHeader)
  | some _ =>
    if (csvLines text).length < 2 then ([], .tooFewLines)
    else
      let idx := mkColIdx (csvHeaders text)
      if idx.cliente.isNone && idx.cCusto.isNone then ([], .noIdentityColumns)
      else
        let rows := ((csvLines text).drop 1).foldl (pushRow (parseRow idx)) []
        if rows.isEmpty then (rows, .noValidRows) else (rows, .ok)

/-- Whether the header of the upload resolves at least one of the two
identity columns, worded from the claim: false both when no header line
exists and when the located header has neither a CLIENTE nor a C.Custo
cell under case-insensitive exact matching. -/
def csvIdentityResolved (text : String) : Bool :=
  match csvHeaderIdx text with
  | none => false
  | some _ =>
    (findCol (csvHeaders text) "CLIENTE").isSome ||
    (findCol (csvHeaders text) "C.Custo").isSome

/-- The one record the two-line sample upload of the C9 witness yields. -/
def sampleParsedRecord : Project :=
  { CLIENTE := "Acme", tipoProjeto := "", tipoProduto := "", BUs := "",
    cCusto := "K1", STATUS := "", perc := none }

/-- Three-record sample collection with percentages 50, null and 100. -/
def sampleRecords : List Project :=
  [{ CLIENTE := "a", tipoProjeto := "", tipoProduto := "", BUs := "", cCusto := "",
     STATUS := "", perc := some 50 },
   { CLIENTE := "b", tipoProjeto := "", tipoProduto := "", BUs := "", cCusto := "",
     STATUS := "", perc := none },
   { CLIENTE := "c", tipoProjeto := "", tipoProduto := "", BUs := "", cCusto := "",
     STATUS := "", perc := some 100 }]

end Teleinfo

namespace Teleinfo

/-- Claim C1 (amended): the percentage normalizer maps null to null and a
string to the float parse of its first-percent-removed, trimmed,
comma-to-point text, null when that text is empty or unparseable; on the
spec's examples it yields 45, 45.5, 45.5, 45, null, null, null. -/
theorem normalizePercent_amended :
    (∀ v : Option String, normalizePercent v = normalizePercentAmendedSpec v) ∧
    normalizePercent (some "45%") = some 45 ∧
    normalizePercent (some "45,5") = some (91 / 2) ∧
    normalizePercent (some "45.5") = some (91 / 2) ∧
    normalizePercent (some " 45 ") = some 45 ∧
    normalizePercent (some "") = none ∧
    normalizePercent none = none ∧
    normalizePercent (some "abc%") = none := by
  refine ⟨fun v => by cases v <;> rfl, ?_, ?_, ?_, ?_, rfl, rfl, rfl⟩
  · have h1 : jsParseFloatRepr "45" = some (false, 45, 0, 0) := by decide
    have h2 : normalizePercent (some "45%") = (jsParseFloatRepr "45").map floatReprValue := rfl
    rw [h2, h1, Option.map_some']
    norm_num [floatReprValue, pow10]
  · have h1 : jsParseFloatRepr "45.5" = some (false, 455, 1, 0) := by decide
    have h2 : normalizePercent (some "45,5") = (jsParseFloatRepr "45.5").map floatReprValue := rfl
    rw [h2, h1, Option.map_some']
    norm_num [floatReprValue, pow10]
  · have h1 : jsParseFloatRepr "45.5" = some (false, 455, 1, 0) := by decide
    have h2 : normalizePercent (some "45.5") = (jsParseFloatRepr "45.5").map floatReprValue := rfl
    rw [h2, h1, Option.map_some']
    norm_num [floatReprValue, pow10]
  · have h1 : jsParseFloatRepr "45" = some (false, 45, 0, 0) := by decide
    have h2 : normalizePercent (some " 45 ") = (jsParseFloatRepr "45").map floatReprValue := rfl
    rw [h2, h1, Option.map_some']
    norm_num [floatReprValue, pow10]

/-- Claim C1 counterexample: on "%45" the source normalizer removes the
leading percent sign and yields 45, while the claim's trailing-percent
description yields null. -/
theorem normalizePercent_trailing_counterexample :
    normalizePercent (some "%45") = some 45 ∧
    normalizePercentTrailingSpec (some "%45") = none := by
  constructor
  · have h1 : jsParseFloatRepr "45" = some (false, 45, 0, 0) := by decide
    have h2 : normalizePercent (some "%45") = (jsParseFloatRepr "45").map floatReprValue := rfl
    rw [h2, h1, Option.map_some']
    norm_num [floatReprValue, pow10]
  · rfl

theorem foldl_add_perc (l : List DetailedProjectStep) :
    l.foldl (fun acc s => acc + s.perc) 0 = (l.map (fun s => s.perc)).sum := by
  have key : ∀ (l : List DetailedProjectStep) (a : ℚ),
      l.foldl (fun acc s => acc + s.perc) a = a + (l.map (fun s => s.perc)).sum := by
    intro l
    induction l with
    | nil => intro a; simp
    | cons x xs ih => intro a; simp [ih, add_assoc]
  simpa using key l 0

/-- Claim C2 (amended): the presentation slide and the AI-prompt builder
compute the overall progress as the arithmetic mean of all step
percentages (0 with no steps), while the monitoring view computes the mean
over only the steps whose trimmed name is non-empty (0 when none remain). -/
theorem overallProgress_amended (steps : List DetailedProjectStep) :
    presOverallProgress steps = meanStepPerc steps ∧
    geminiOverallProgress steps = meanStepPerc steps ∧
    monitoringOverallProgress steps =
      meanStepPerc (steps.filter (fun s => !(jsTrim s.name == ""))) := by
  have hpres : ∀ l : List DetailedProjectStep, presOverallProgress l = meanStepPerc l := by
    intro l
    simp only [presOverallProgress, meanStepPerc]
    cases l with
    | nil => simp
    | cons x xs => rw [foldl_add_perc, if_pos (by simp), if_neg (by simp)]
  have hmon : monitoringOverallProgress steps =
      meanStepPerc (steps.filter (fun s => !(jsTrim s.name == ""))) := by
    simp only [monitoringOverallProgress, meanStepPerc]
    by_cases h : steps.filter (fun s => !(jsTrim s.name == "")) = []
    · rw [if_pos (by simp [h]), if_pos h]
    · rw [if_neg (by simpa [List.length_eq_zero] using h), if_neg h, foldl_add_perc]
  exact ⟨hpres steps, hpres steps, hmon⟩

/-- Claim C2 counterexample: for the single-step project whose step has a
blank name and 100 percent, the monitoring view reports 0 while the
presentation slide and the AI-prompt builder report the mean 100 of all
steps. -/
theorem overallProgress_counterexample :
    monitoringOverallProgress [{ name := "", perc := 100 }] = 0 ∧
    presOverallProgress [{ name := "", perc := 100 }] = 100 ∧
    geminiOverallProgress [{ name := "", perc := 100 }] = 100 := by
  refine ⟨rfl, ?_, ?_⟩ <;>
    norm_num [presOverallProgress, geminiOverallProgress]

/-- Claim C3: with both dates present and start at most end, the timeline
progress is the elapsed fraction as a percentage clamped to 0..100; on a
zero-duration interval it is 100 exactly when today is at or after the end
date and 0 otherwise. -/
theorem timelineProgress_spec (s e t : ℤ) (hse : s ≤ e) :
    (0 < e - s →
      timelineProgress (some s) (some e) t =
        max 0 (min 100 (((t - s : ℤ) : ℚ) / ((e - s : ℤ) : ℚ) * 100))) ∧
    (e - s = 0 →
      ((e ≤ t → timelineProgress (some s) (some e) t = 100) ∧
       (t < e → timelineProgress (some s) (some e) t = 0))) := by
  constructor
  · intro h
    simp only [timelineProgress]
    rw [if_pos hse, if_pos h]
  · intro h
    constructor
    · intro ht
      simp only [timelineProgress]
      rw [if_pos hse, if_neg (by omega), if_pos ht]
    · intro ht
      simp only [timelineProgress]
      rw [if_pos hse, if_neg (by omega), if_neg (by omega)]

/-- Claim C3 witness: with start, end and today all on the shared
zero-duration date, the timeline reads 100 percent. -/
theorem timelineProgress_spec_witness :
    (0 : ℤ) ≤ 0 ∧ timelineProgress (some 0) (some 0) 0 = 100 :=
  ⟨le_refl 0, ((timelineProgress_spec 0 0 0 (le_refl 0)).2 (by omega)).1 (le_refl 0)⟩

/-- Claim C4: with positive sold hours the Utilizadas bar is the exceeded
color exactly when used exceeds sold, else the at-risk color exactly when
used over sold is at least 0.8, else the normal color; with zero sold
hours it is always the normal color. -/
theorem hoursRiskColor_spec (sold used : ℚ) :
    (sold = 0 → hoursRiskColor sold used = "#f97316") ∧
    (0 < sold → (hoursRiskColor sold used = "#ef4444" ↔ sold < used)) ∧
    (0 < sold → used ≤ sold →
      (hoursRiskColor sold used = "#eab308" ↔ (8 : ℚ) / 10 ≤ used / sold)) ∧
    (0 < sold → used ≤ sold → used / sold < (8 : ℚ) / 10 →
      hoursRiskColor sold used = "#f97316") := by
  unfold hoursRiskColor
  refine ⟨fun h => by simp [h], fun h => ?_, fun h h2 => ?_, fun h h2 h3 => ?_⟩
  · rw [if_pos h]
    by_cases h2 : sold < used
    · simp [h2]
    · rw [if_neg h2]
      by_cases h3 : (8 : ℚ) / 10 ≤ used / sold
      · simp [h3, h2]
      · simp [h3, h2]
  · rw [if_pos h, if_neg (not_lt.mpr h2)]
    by_cases h3 : (8 : ℚ) / 10 ≤ used / sold
    · simp [h3]
    · simp [h3]
  · rw [if_pos h, if_neg (not_lt.mpr h2), if_neg (not_le.mpr h3)]

/-- Claim C4 witness: sold 100 and used 100 hit the at-risk color, not the
exceeded one. -/
theorem hoursRiskColor_spec_witness :
    (0 : ℚ) < 100 ∧ (100 : ℚ) ≤ 100 ∧ hoursRiskColor 100 100 = "#eab308" :=
  ⟨by norm_num, le_refl 100,
    ((hoursRiskColor_spec 100 100).2.2.1 (by norm_num) (le_refl 100)).mpr (by norm_num)⟩

/-- Claim C5: the chart color of every status is the fixed color of the
bucket obtained by normalizing and testing the four canonical labels as
text beginnings in order with a default fallback; the summary tally
applies the same prefix rule to the stored (already normalized) text; and
the status PARALIZADO - AGUARDANDO CLIENTE lands in the PARALIZADO
bucket by prefix match. -/
theorem statusClassifier_spec :
    (∀ s : String, getStatusChartColor s = bucketChartColor (classifyStatus s)) ∧
    (∀ s : String, classifyStatus s = classifyRawStatus (normalizeStatus s)) ∧
    classifyStatus "PARALIZADO - AGUARDANDO CLIENTE" = StatusBucket.paralizado ∧
    getStatusChartColor "PARALIZADO - AGUARDANDO CLIENTE" =
      bucketChartColor StatusBucket.paralizado := by
  refine ⟨fun s => ?_, fun s => rfl, by decide, by decide⟩
  by_cases h1 : startsWithStr (normalizeStatus s) "FINALIZADO" = true <;>
    by_cases h2 : startsWithStr (normalizeStatus s) "EM ANDAMENTO" = true <;>
      by_cases h3 : startsWithStr (normalizeStatus s) "PARALIZADO" = true <;>
        by_cases h4 : startsWithStr (normalizeStatus s) "NÃO INICIADO" = true <;>
          simp [getStatusChartColor, classifyStatus, bucketChartColor, h1, h2, h3, h4]

theorem foldl_add_rat (l : List ℚ) :
    l.foldl (fun a b => a + b) 0 = l.sum := by
  have key : ∀ (l : List ℚ) (a : ℚ), l.foldl (fun a b => a + b) a = a + l.sum := by
    intro l
    induction l with
    | nil => intro a; simp
    | cons x xs ih => intro a; simp [ih, add_assoc]
  simpa using key l 0

/-- Claim C6: the aggregator averages only the non-null percentages, is 0
when none is present, formats the average to one decimal place as a
percentage string, and on records with percentages 50, null, 100 prints
75.0 percent. -/
theorem avgPercent_spec (data : List Project) :
    (Dashboard.percValues data = [] → Dashboard.avgOf data = 0) ∧
    (Dashboard.percValues data ≠ [] →
      Dashboard.avgOf data =
        (Dashboard.percValues data).sum / ((Dashboard.percValues data).length : ℚ)) ∧
    Dashboard.avgPercentOf data = toFixed1 (Dashboard.avgOf data) ++ "%" ∧
    Dashboard.avgPercentOf sampleRecords = "75.0%" := by
  refine ⟨fun h => ?_, fun h => ?_, rfl, ?_⟩
  · unfold Dashboard.avgOf
    rw [if_pos (by simp [h])]
  · unfold Dashboard.avgOf
    rw [if_neg (by simpa [List.length_eq_zero] using h), foldl_add_rat]
  · have h1 : Dashboard.percValues sampleRecords = [50, 100] := rfl
    have h3 : Dashboard.avgOf sampleRecords = 75 := by
      unfold Dashboard.avgOf
      rw [h1]
      norm_num [List.foldl_cons, List.foldl_nil]
    show toFixed1 (Dashboard.avgOf sampleRecords) ++ "%" = "75.0%"
    rw [h3]
    have h5 : (⌊10 * (75 : ℚ) + 1 / 2⌋ : ℤ) = 750 := by
      rw [Int.floor_eq_iff]
      norm_num
    simp only [toFixed1, toFixed1Nonneg]
    rw [if_neg (by norm_num), h5]
    decide

/-- Claim C6 witness: the sample has non-null percentages, and the
aggregator average there is their sum over their count. -/
theorem avgPercent_spec_witness :
    Dashboard.percValues sampleRecords ≠ [] ∧
    Dashboard.avgOf sampleRecords =
      (Dashboard.percValues sampleRecords).sum /
        ((Dashboard.percValues sampleRecords).length : ℚ) :=
  ⟨by decide, (avgPercent_spec sampleRecords).2.1 (by decide)⟩

/-- Claim C8: the filter-choice sets of the dashboard view model do not
depend on the selected status, BU and client filters: any two filter
choices over the same collection produce the same uniqueFilters. -/
theorem uniqueFilters_filter_independent (projects : List Project)
    (sf1 bf1 cf1 sf2 bf2 cf2 : String) :
    (dashboardModel projects sf1 bf1 cf1).uniqueFilters =
      (dashboardModel projects sf2 bf2 cf2).uniqueFilters := rfl

/-- Claim C10: the DashboardView summary computation and the
PresentationView portfolio summary agree on every record list: same
totals and formatted average, same four canonical-status counts, and the
same status and BU chart rows with identical labels, counts and colors. -/
theorem dashboard_presentation_equiv (data : List Project) :
    Dashboard.summaryOf data = Pres.summaryOf data ∧
    Dashboard.statusChartDataOf data = Pres.statusChartDataOf data ∧
    Dashboard.buChartDataOf data = Pres.buChartDataOf data :=
  ⟨rfl, rfl, rfl⟩

theorem dropWhile_idem {α : Type} (p : α → Bool) (l : List α) :
    (l.dropWhile p).dropWhile p = l.dropWhile p := by
  induction l with
  | nil => rfl
  | cons a l ih =>
    by_cases h : p a = true
    · simp [List.dropWhile_cons, h, ih]
    · simp [List.dropWhile_cons, h]

theorem head_dropWhile_false {α : Type} (p : α → Bool) (l : List α) :
    ∀ c, (l.dropWhile p).head? = some c → p c = false := by
  induction l with
  | nil => intro c h; simp at h
  | cons a l ih =>
    intro c h
    by_cases hp : p a = true
    · rw [List.dropWhile_cons, if_pos hp] at h
      exact ih c h
    · rw [List.dropWhile_cons, if_neg hp] at h
      simp only [List.head?_cons, Option.some.injEq] at h
      subst h
      simpa using hp

theorem dropWhile_eq_self_of_head {α : Type} (p : α → Bool) (l : List α)
    (h : ∀ c, l.head? = some c → p c = false) : l.dropWhile p = l := by
  cases l with
  | nil => rfl
  | cons a l =>
    rw [List.dropWhile_cons, if_neg]
    simp [h a rfl]

theorem trimEnd_head? (l : List Char) :
    trimEndL l = [] ∨ (trimEndL l).head? = l.head? := by
  by_cases h : l.reverse.dropWhile jsIsSpace = []
  · left
    simp [trimEndL, h]
  · right
    unfold trimEndL
    rw [List.head?_reverse]
    obtain ⟨t, ht⟩ := List.dropWhile_suffix (l := l.reverse) (p := jsIsSpace)
    have h2 : (l.reverse.dropWhile jsIsSpace).getLast? = l.reverse.getLast? := by
      conv_rhs => rw [← ht]
      rw [List.getLast?_append_of_ne_nil _ h]
    rw [h2, List.getLast?_reverse]

theorem trimStart_trimEnd_trimStart (l : List Char) :
    trimStartL (trimEndL (trimStartL l)) = trimEndL (trimStartL l) := by
  rcases trimEnd_head? (trimStartL l) with h | h
  · rw [h]; rfl
  · apply dropWhile_eq_self_of_head
    intro c hc
    rw [h] at hc
    exact head_dropWhile_false jsIsSpace l c hc

theorem trimEnd_idem (l : List Char) : trimEndL (trimEndL l) = trimEndL l := by
  unfold trimEndL
  rw [List.reverse_reverse, dropWhile_idem]

theorem jsTrim_idem (s : String) : jsTrim (jsTrim s) = jsTrim s := by
  show (trimEndL (trimStartL (trimEndL (trimStartL s.data)))).asString = _
  rw [trimStart_trimEnd_trimStart, trimEnd_idem]
  rfl

theorem jsTrim_cellOrEmpty (o : Option Nat) (cells : List String) :
    jsTrim (cellOrEmpty o cells) = cellOrEmpty o cells := by
  cases o with
  | none => rfl
  | some i => exact jsTrim_idem (cells.getD i "")

theorem foldl_push_filterMap {α β : Type} (f : α → Option β) (l : List α)
    (acc : List β) :
    l.foldl (pushRow f) acc = acc ++ l.filterMap f := by
  induction l generalizing acc with
  | nil => simp
  | cons x xs ih =>
    rw [List.foldl_cons]
    cases hf : f x with
    | none => simp only [pushRow, hf, ih, List.filterMap_cons_none hf]
    | some r =>
      simp only [pushRow, hf, ih, List.filterMap_cons_some hf]
      simp

theorem parseRow_some_identity (idx : ColIdx) (line : String) (r : Project)
    (h : parseRow idx line = some r) :
    jsTrim r.CLIENTE ≠ "" ∨ jsTrim r.cCusto ≠ "" := by
  simp only [parseRow] at h
  by_cases hg : (cellOrEmpty idx.cliente (jsSplit ';' line) == "" &&
      cellOrEmpty idx.cCusto (jsSplit ';' line) == "") = true
  · rw [if_pos hg] at h
    exact absurd h (by simp)
  · rw [if_neg hg] at h
    have hr := Option.some.inj h
    simp only [Bool.and_eq_true, beq_iff_eq, not_and] at hg
    by_cases hc : cellOrEmpty idx.cliente (jsSplit ';' line) = ""
    · right
      rw [← hr]
      show jsTrim (cellOrEmpty idx.cCusto (jsSplit ';' line)) ≠ ""
      rw [jsTrim_cellOrEmpty]
      exact hg hc
    · left
      rw [← hr]
      show jsTrim (cellOrEmpty idx.cliente (jsSplit ';' line)) ≠ ""
      rw [jsTrim_cellOrEmpty]
      exact hc

theorem parseRow_none_of_missing_identity (idx : ColIdx)
    (h1 : idx.cliente = none) (h2 : idx.cCusto = none) (line : String) :
    parseRow idx line = none := by
  simp [parseRow, h1, h2, cellOrEmpty]

/-- Claim C9: every record the normalizer returns has a trimmed non-empty
CLIENTE or a trimmed non-empty C.Custo field, and the returned records
are exactly the surviving data lines mapped through the row builder in
input order. -/
theorem parseCsv_row_invariant (text : String) :
    (∀ r ∈ (parseTeleinfoCsv text).1,
      jsTrim r.CLIENTE ≠ "" ∨ jsTrim r.cCusto ≠ "") ∧
    (parseTeleinfoCsv text).1 =
      ((csvLines text).drop 1).filterMap (parseRow (mkColIdx (csvHeaders text))) := by
  have heq : (parseTeleinfoCsv text).1 =
      ((csvLines text).drop 1).filterMap (parseRow (mkColIdx (csvHeaders text))) := by
    unfold parseTeleinfoCsv
    cases hidx : csvHeaderIdx text with
    | none =>
      have hnil : csvLines text = [] := by
        unfold csvLines
        rw [hidx]
      simp [hnil]
    | some i =>
      by_cases hlen : (csvLines text).length < 2
      · rw [if_pos hlen]
        have hdrop : (csvLines text).drop 1 = [] :=
          List.drop_eq_nil_of_le (by omega)
        simp [hdrop]
      · rw [if_neg hlen]
        by_cases hid : ((mkColIdx (csvHeaders text)).cliente.isNone &&
            (mkColIdx (csvHeaders text)).cCusto.isNone) = true
        · rw [if_pos hid]
          simp only [Bool.and_eq_true, Option.isNone_iff_eq_none] at hid
          symm
          rw [List.filterMap_eq_nil_iff]
          intro a _
          exact parseRow_none_of_missing_identity _ hid.1 hid.2 a
        · rw [if_neg hid]
          have hfold := foldl_push_filterMap (parseRow (mkColIdx (csvHeaders text)))
            ((csvLines text).drop 1) []
          rw [List.nil_append] at hfold
          simp only [apply_ite Prod.fst, ite_self]
          exact hfold
  refine ⟨?_, heq⟩
  intro r hr
  rw [heq] at hr
  obtain ⟨a, _, hpa⟩ := List.mem_filterMap.mp hr
  exact parseRow_some_identity _ a r hpa

/-- Claim C9 witness: the single emitted record of a two-line upload is in
the output and satisfies the identity invariant. -/
theorem parseCsv_row_invariant_witness :
    sampleParsedRecord ∈ (parseTeleinfoCsv "CLIENTE;C.Custo\nAcme;K1").1 ∧
    (jsTrim sampleParsedRecord.CLIENTE ≠ "" ∨
     jsTrim sampleParsedRecord.cCusto ≠ "") :=
  ⟨by decide,
    (parseCsv_row_invariant "CLIENTE;C.Custo\nAcme;K1").1 _ (by decide)⟩

/-- Claim C7: whenever the upload's header resolves neither a CLIENTE nor
a C.Custo column, whether because no header line exists or because the
located header lacks both cells, the normalizer returns no records
together with a parse-fatal outcome. -/
theorem parseCsv_missing_identity_fatal (text : String)
    (h : csvIdentityResolved text = false) :
    (parseTeleinfoCsv text).1 = [] ∧
    (parseTeleinfoCsv text).2.isFatal = true := by
  unfold parseTeleinfoCsv
  cases hidx : csvHeaderIdx text with
  | none => simp [ParseOutcome.isFatal]
  | some i =>
    unfold csvIdentityResolved at h
    rw [hidx] at h
    simp only [Bool.or_eq_false_iff] at h
    by_cases hlen : (csvLines text).length < 2
    · rw [if_pos hlen]
      exact ⟨rfl, rfl⟩
    · rw [if_neg hlen]
      have h1 := Option.not_isSome.mp h.1
      have h2 := Option.not_isSome.mp h.2
      have hid : ((mkColIdx (csvHeaders text)).cliente.isNone &&
          (mkColIdx (csvHeaders text)).cCusto.isNone) = true := by
        simp [mkColIdx, h1, h2]
      rw [if_pos hid]
      exact ⟨rfl, rfl⟩

/-- Claim C7 witness: a two-line upload whose header row contains the
CLIENTE token only as part of another word resolves no identity column
and parses to no records with a fatal outcome. -/
theorem parseCsv_missing_identity_fatal_witness :
    csvIdentityResolved "X CLIENTES;FOO\na;b" = false ∧
    ((parseTeleinfoCsv "X CLIENTES;FOO\na;b").1 = [] ∧
     (parseTeleinfoCsv "X CLIENTES;FOO\na;b").2.isFatal = true) :=
  ⟨by decide, parseCsv_missing_identity_fatal _ (by decide)⟩

end Teleinfo
